import Mathlib

/-
Verification of the on-screen-keyboard detector engine.

The development shallowly embeds the two detection strategies of the
repository:

* Strategy A (`src/unnamed/part_000`, the iOS module): a direct
  visual-viewport ratio classifier with a duplicate-suppressing callback
  wrapper.
* Strategy B (`src/lib/index.js`): the heuristic multi-signal engine —
  per-orientation baseline map, focus debounce, visibility gate, and the
  resize-delta classifier feeding a duplicate-suppressed output stream.

Pixel dimensions are modelled as rationals (`ℚ`) so that the source's
threshold comparisons (`0.1 * screen.availHeight`, `0.9 * nonOSKLayoutHeight`)
are exact.  Event streams are modelled as lists, ordered by time; stream
combinators of `@most/core` used by the source (`scan`, `skipAfter`,
`skipRepeats`, `switchLatest`, `snapshot`, `merge`) are embedded as list
functions.
-/

namespace OSKD

/-- The externally observable keyboard state, `'visible'` / `'hidden'` in the
source. -/
inductive KeyboardState where
  | visible
  | hidden
deriving DecidableEq, Repr

/-- `getScreenOrientationType` from `src/lib/index.js`:
`screen.orientation.type.startsWith('portrait') ? 'portrait' : 'landscape'`.
The `startsWith` test is embedded as a character-list prefix check so that it
evaluates on concrete orientation-type strings. -/
def getScreenOrientationType (orientationType : String) : String :=
  if "portrait".toList.isPrefixOf orientationType.toList then "portrait"
  else "landscape"

/-! ## Strategy B resize-delta classifier

The snapshot function inside `osk` (`src/lib/index.js`): given the looked-up
`nonOSKLayoutHeight` for the current orientation, the settled `height` and the
signed delta `dH` of a width-preserving resize, produce `now('visible')`,
`now('hidden')` or `empty()` — embedded as `Option KeyboardState`. -/

/-- The fallback branch of the `osk` snapshot function, taken when
`!nonOSKLayoutHeight`:
`(dH > 0.1 * screen.availHeight) ? now('hidden') :
 (dH < -0.1 * screen.availHeight) ? now('visible') : empty()`. -/
def classifyFallback (availHeight dH : ℚ) : Option KeyboardState :=
  if dH > 1/10 * availHeight then some KeyboardState.hidden
  else if dH < -(1/10 * availHeight) then some KeyboardState.visible
  else none

/-- The `osk` snapshot function of `src/lib/index.js`.  `nonOSKLayoutHeight`
is the map lookup `layoutHeightByOrientation[getScreenOrientationType()]`
(`none` when the key is absent); the source's falsy test
`!nonOSKLayoutHeight` is also true for a zero height, so `some 0` takes the
fallback branch as well. -/
def classifyResize (nonOSKLayoutHeight : Option ℚ) (availHeight height dH : ℚ) :
    Option KeyboardState :=
  match nonOSKLayoutHeight with
  | none => classifyFallback availHeight dH
  | some nh =>
      if nh = 0 then classifyFallback availHeight dH
      else if height < 9/10 * nh ∧ dH < 0 then some KeyboardState.visible
      else if height = nh ∧ dH > 0 then some KeyboardState.hidden
      else none

/-! ## Strategy A (`src/unnamed/part_000`) -/

/-- The sentinel the duplicate filter starts from:
`let previous = '_one_time_initial_'`. -/
def oneTimeInitial : String := "_one_time_initial_"

/-- `skipDuplicates` of `src/unnamed/part_000`, run over a whole input list:
the closure holds `previous` and forwards `next` exactly when
`next !== previous`. -/
def skipDuplicatesRun (previous : String) : List String → List String
  | [] => []
  | next :: rest =>
      if next ≠ previous then next :: skipDuplicatesRun next rest
      else skipDuplicatesRun previous rest

/-- The classification computed by `onResize` in `src/unnamed/part_000`:
`relativeDifferenceBetweenInnerHeightAndViewportHeight =
 (window.innerHeight - evt.target.height) / window.innerHeight`, then
`'visible'` when that ratio `> 0.1`, else `'hidden'`. -/
def onResizeClassification (innerHeight viewportHeight : ℚ) : String :=
  if (innerHeight - viewportHeight) / innerHeight > 1/10 then "visible"
  else "hidden"

/-- `isSupported` of `src/unnamed/part_000`: exactly the
`'visualViewport' in window` capability probe. -/
def iosIsSupported (isVisualViewportSupported : Bool) : Bool :=
  isVisualViewportSupported

/-- `isSupported` of `src/lib/index.js`: delegates to the iOS probe on iOS,
otherwise reports touch capability. -/
def isSupportedMain (isIOS isTouchable isVisualViewportSupported : Bool) : Bool :=
  if isIOS then iosIsSupported isVisualViewportSupported else isTouchable

/-- Outcome of calling `subscribe` in `src/unnamed/part_000`: whether the
unsupported warning was logged and whether the `resize` listener was
attached to `visualViewport`. -/
structure IosSubscribeOutcome where
  warned : Bool
  listenerAttached : Bool
deriving DecidableEq, Repr

/-- `subscribe` of `src/unnamed/part_000`: when unsupported it logs a warning
and returns the trivial unsubscribe without attaching anything; otherwise it
attaches `onResize`. -/
def iosSubscribe (supported : Bool) : IosSubscribeOutcome :=
  if supported then { warned := false, listenerAttached := true }
  else { warned := true, listenerAttached := false }

/-- The callback invocations produced by a Strategy A subscription for a
sequence of visual-viewport resize events (their `height` values): each event
is classified by `onResize` and passed through `skipDuplicates`; with no
listener attached no invocation ever happens. -/
def iosSubscribeInvocations (supported : Bool) (innerHeight : ℚ)
    (viewportHeights : List ℚ) : List String :=
  if supported then
    skipDuplicatesRun oneTimeInitial
      (viewportHeights.map (onResizeClassification innerHeight))
  else []

/-- The unsubscribe function returned by `subscribe`: detaches the listener
when one was attached, and otherwise (`() => undefined`) changes nothing. -/
def iosUnsubscribe (o : IosSubscribeOutcome) : IosSubscribeOutcome :=
  { o with listenerAttached := false }

/-! ## Strategy B: per-orientation baseline map (`layoutHeights`)

The `scan` in `layoutHeights` folds `assoc(screenOrientation, height)` over
the candidate stream, starting from the singleton object
`{ [getScreenOrientationType()]: window.innerHeight }`, and `skipAfter` cuts
the stream once both `'portrait'` and `'landscape'` are keys.  A JS object is
embedded as an association list whose `assoc` updates an existing key in
place and appends a new one. -/

/-- One baseline candidate, as produced by `layoutHeightOnUnfocus` or
`layoutHeightOnOSKFreeOrientationChange`. -/
structure HeightByOrientation where
  screenOrientation : String
  height : ℚ
deriving DecidableEq, Repr

/-- Ramda's `assoc(k, v, obj)` on a string-keyed object embedded as an
association list: overwrite the value at `k` if present, else add the key. -/
def assocSet (k : String) (v : ℚ) : List (String × ℚ) → List (String × ℚ)
  | [] => [(k, v)]
  | (k₀, v₀) :: rest =>
      if k₀ = k then (k, v) :: rest else (k₀, v₀) :: assocSet k v rest

/-- The `scan` step of `layoutHeights`:
`(accHeights, {screenOrientation, height}) => assoc(screenOrientation, height, accHeights)`. -/
def layoutHeightsStep (accHeights : List (String × ℚ)) (c : HeightByOrientation) :
    List (String × ℚ) :=
  assocSet c.screenOrientation c.height accHeights

/-- `scan` of `@most/core` over a list: emits the seed first, then each
accumulated value. -/
def scanRun (step : β → α → β) (seed : β) : List α → List β
  | [] => [seed]
  | a :: rest => seed :: scanRun step (step seed a) rest

/-- The `skipAfter` combinator of `@most/core` over a list: keep events up to
and including the first one satisfying `p`, discard everything after. -/
def skipAfterRun (p : α → Bool) : List α → List α
  | [] => []
  | a :: rest => if p a then [a] else a :: skipAfterRun p rest

/-- The `skipAfter` predicate of `layoutHeights`:
`compose(isEmpty, difference(['portrait', 'landscape']), keys)` — true exactly
when both orientations are keys of the accumulated object. -/
def bothOrientationsPresent (m : List (String × ℚ)) : Bool :=
  (m.map Prod.fst).contains "portrait" && (m.map Prod.fst).contains "landscape"

/-- The seed of the `layoutHeights` scan:
`{ [getScreenOrientationType()]: window.innerHeight }`, sampled at
subscription time. -/
def layoutHeightsSeed (orientationTypeAtSubscribe : String)
    (innerHeightAtSubscribe : ℚ) : List (String × ℚ) :=
  [(getScreenOrientationType orientationTypeAtSubscribe, innerHeightAtSubscribe)]

/-- The maps emitted by `layoutHeights` for a list of baseline candidates
(those that passed the visibility gate): scan from the singleton seed, then
stop after both orientations are present. -/
def layoutHeightsEmissions (orientationTypeAtSubscribe : String)
    (innerHeightAtSubscribe : ℚ) (candidates : List HeightByOrientation) :
    List (List (String × ℚ)) :=
  skipAfterRun bothOrientationsPresent
    (scanRun layoutHeightsStep
      (layoutHeightsSeed orientationTypeAtSubscribe innerHeightAtSubscribe)
      candidates)

/-! ## Strategy B: baseline on orientation change
(`layoutHeightOnOSKFreeOrientationChange`)

The source snapshots `unfocused || (window.innerHeight === initialLayoutHeight)`
at the moment the `change` event fires — before the rotation's `resize` has
updated `window.innerHeight` — debounces it for the settle delay, and only
then samples orientation and height.  The world state around one orientation
change is captured in a record with both sampling instants. -/

/-- `screen.availHeight - window.innerHeight`, computed once at startup
(`approximateBrowserToolbarHeight` in the source). -/
def approximateBrowserToolbarHeight (availHeight initialLayoutHeight : ℚ) : ℚ :=
  availHeight - initialLayoutHeight

/-- The platform state relevant to one orientation-change event: samples at
the `change` event itself and after the settle delay, plus the startup
constants.  `screen.availHeight` is read twice by the source — once at
startup for the toolbar estimate and once after the rotation settles, inside
the debounced `map` — and the two reads generally differ across a rotation,
so they are separate fields. -/
structure OrientationChangeEnv where
  /-- value of the debounced `isUnfocused` stream when the `change` event fires -/
  unfocusedAtChange : Bool
  /-- value of the debounced `isUnfocused` stream after the settle delay -/
  unfocusedAtSettle : Bool
  /-- `window.innerHeight` when the `change` event fires (still pre-rotation) -/
  heightAtChange : ℚ
  /-- `window.innerHeight` after the settle delay (post-rotation) -/
  heightAtSettle : ℚ
  /-- `screen.orientation.type` after the settle delay -/
  orientationTypeAtSettle : String
  /-- `screen.availHeight` read at startup, entering `approximateBrowserToolbarHeight` -/
  availHeightAtStartup : ℚ
  /-- `screen.availHeight` read after the settle delay, in the candidate's height -/
  availHeightAtSettle : ℚ
  /-- `window.innerHeight` recorded at startup (`initialLayoutHeight`) -/
  initialLayoutHeight : ℚ
deriving DecidableEq, Repr

/-- `layoutHeightOnOSKFreeOrientationChange` of `src/lib/index.js` for one
orientation change: the `isOSKFree` flag is snapshotted at the `change` event
(`unfocused || window.innerHeight === initialLayoutHeight`), and after the
debounce the candidate pairs the settled orientation with either the settled
window height or `screen.availHeight - approximateBrowserToolbarHeight`,
where `screen.availHeight` is re-read at that moment while the toolbar
estimate keeps its startup reads. -/
def layoutHeightOnOSKFreeOrientationChange (env : OrientationChangeEnv) :
    HeightByOrientation :=
  let isOSKFree :=
    env.unfocusedAtChange || decide (env.heightAtChange = env.initialLayoutHeight)
  { screenOrientation := getScreenOrientationType env.orientationTypeAtSettle,
    height :=
      if isOSKFree then env.heightAtSettle
      else
        env.availHeightAtSettle -
          approximateBrowserToolbarHeight env.availHeightAtStartup
            env.initialLayoutHeight }

/-- Modelled from the claim's words, not from the source (for comparison with
`layoutHeightOnOSKFreeOrientationChange`): record the current window height
when, at sampling time — after the settle delay — the device is unfocused or
the window height is unchanged from its pre-rotation value; otherwise record
`screen.availHeight − toolbarHeightEstimate`, with `toolbarHeightEstimate`
computed once at startup as `screen.availHeight` minus the initial window
height. -/
def claimedBaselineOnOrientationChange (env : OrientationChangeEnv) : ℚ :=
  if env.unfocusedAtSettle || decide (env.heightAtSettle = env.heightAtChange) then
    env.heightAtSettle
  else
    env.availHeightAtSettle -
      approximateBrowserToolbarHeight env.availHeightAtStartup
        env.initialLayoutHeight

/-! ## Strategy B: the focus-debounce tracker (`isUnfocused`)

`isUnfocused` maps every `focusin` to `now(false)` and every `focusout` to
`at(INPUT_ELEMENT_FOCUS_JUMP_DELAY, true)`, runs `switchLatest` (each new
focus event disposes the previous inner stream, cancelling any pending
delayed `true`), prepends `!isAnyElementActive()` with `startWith`, and
deduplicates with `skipRepeats`.  Focus events are modelled as a
time-stamped list with strictly increasing times; times are in
milliseconds. -/

/-- `INPUT_ELEMENT_FOCUS_JUMP_DELAY = 700` -/
def INPUT_ELEMENT_FOCUS_JUMP_DELAY : ℕ := 700

/-- The two DOM focus event kinds merged into the `focus` stream. -/
inductive FocusEventType where
  | focusin
  | focusout
deriving DecidableEq, Repr

/-- The inner stream built from one focus event:
`evt.type === 'focusin' ? now(false) : at(INPUT_ELEMENT_FOCUS_JUMP_DELAY, true)`,
with emission times made absolute (the event fired at time `t`). -/
def focusInnerStream (t : ℕ) : FocusEventType → List (ℕ × Bool)
  | FocusEventType.focusin => [(t, false)]
  | FocusEventType.focusout => [(t + INPUT_ELEMENT_FOCUS_JUMP_DELAY, true)]

/-- `switchLatest` over the mapped focus stream: each event starts a new
inner stream and disposes the previous one, so of an inner stream only the
emissions scheduled strictly before the next focus event survive. -/
def switchFocusRun : List (ℕ × FocusEventType) → List (ℕ × Bool)
  | [] => []
  | (t, e) :: rest =>
      match rest with
      | [] => focusInnerStream t e
      | (tNext, _) :: _ =>
          (focusInnerStream t e).filter (fun p => p.1 < tNext) ++ switchFocusRun rest

/-- `isAnyElementActive` of `src/lib/index.js`:
`document.activeElement && document.activeElement !== document.body`.  The
active element is `none` when `document.activeElement` is null; element `0`
stands for `document.body`. -/
def isAnyElementActive (activeElement : Option ℕ) : Bool :=
  match activeElement with
  | none => false
  | some e => decide (e ≠ 0)

/-- The `startWith` seed of `isUnfocused`: `!isAnyElementActive()`. -/
def isUnfocusedSeed (activeElement : Option ℕ) : Bool :=
  ! isAnyElementActive activeElement

/-- `skipRepeats` of `@most/core` over a list, carried out from an explicit
previous value (`none` before anything was emitted): forwards a value exactly
when it differs from the previously forwarded one. -/
def skipRepeatsRun [DecidableEq α] : Option α → List α → List α
  | _, [] => []
  | prev, a :: rest =>
      if prev = some a then skipRepeatsRun prev rest
      else a :: skipRepeatsRun (some a) rest

/-- The full `isUnfocused` stream value sequence: seed from
`!isAnyElementActive()`, then the `switchLatest` output in time order, then
`skipRepeats`. -/
def isUnfocusedEmissions (activeElement : Option ℕ)
    (events : List (ℕ × FocusEventType)) : List Bool :=
  skipRepeatsRun none
    (isUnfocusedSeed activeElement :: (switchFocusRun events).map Prod.snd)

/-! ## Strategy B: the `osk` output stream

The classifier output (`join`ed snapshot results) is merged with the
focus-forced stream `isUnfocused |> filter(identical(true)) |> map(always('hidden'))`
and finally passed through `skipRepeats`.  The merged upstream is modelled as
a time-ordered list of source events. -/

/-- One upstream event of the merged `osk` stream: a classifier emission, or
a confirmed-unfocused transition (`isUnfocused` becoming `true`). -/
inductive OskSourceEvent where
  | classified (s : KeyboardState)
  | confirmedUnfocus
deriving DecidableEq, Repr

/-- The value each merged upstream event carries into `skipRepeats`: a
confirmed unfocus is mapped to `'hidden'` (`map(always('hidden'))`). -/
def oskMergedValue : OskSourceEvent → KeyboardState
  | OskSourceEvent.classified s => s
  | OskSourceEvent.confirmedUnfocus => KeyboardState.hidden

/-- The callback deliveries of the `osk` stream for a list of merged upstream
events, given the value most recently delivered by `skipRepeats` (`none` when
nothing has been delivered yet). -/
def oskDeliveries (prev : Option KeyboardState) (events : List OskSourceEvent) :
    List KeyboardState :=
  skipRepeatsRun prev (events.map oskMergedValue)

/-- The `skipRepeats` state left behind after processing a list of merged
upstream events. -/
def oskDeliveryState (prev : Option KeyboardState) :
    List OskSourceEvent → Option KeyboardState
  | [] => prev
  | e :: rest =>
      if prev = some (oskMergedValue e) then oskDeliveryState prev rest
      else oskDeliveryState (some (oskMergedValue e)) rest

/-! ## The visibility gate and the per-event engine step

In the source, the gate
`rejectCapture(map(equals('hidden'), documentVisibility))` sits only inside
`layoutHeights` (after `delay(1000)`): a baseline candidate is dropped when
the document-visibility state is `'hidden'` at the moment the delayed event
is processed.  The resize-classification path (`layoutHeightOnVerticalResize`
→ `osk`) carries no visibility gate.  The per-event step makes both paths
explicit. -/

/-- One engine input event: a baseline candidate (from the unfocus or
orientation-change sources) or a settled width-preserving resize sample. -/
inductive EngineEvent where
  | baselineCandidate (c : HeightByOrientation)
  | resizeSample (height dH : ℚ)
deriving DecidableEq, Repr

/-- The object lookup `layoutHeightByOrientation[getScreenOrientationType()]`. -/
def lookupHeight (m : List (String × ℚ)) (k : String) : Option ℚ :=
  (m.find? (fun p => p.1 = k)).map Prod.snd

/-- Processing of one engine event, given the document-visibility state at
the moment the event is processed, the accumulated baseline map, the current
orientation key and `screen.availHeight`: returns the updated baseline map
and the classification emitted, if any.  Baseline candidates pass the
visibility gate of `layoutHeights`; resize samples are classified by the
`osk` snapshot function, which is not gated. -/
def engineStep (visibilityState : String) (m : List (String × ℚ))
    (orientationKey : String) (availHeight : ℚ) :
    EngineEvent → List (String × ℚ) × Option KeyboardState
  | EngineEvent.baselineCandidate c =>
      if visibilityState = "hidden" then (m, none)
      else (layoutHeightsStep m c, none)
  | EngineEvent.resizeSample height dH =>
      (m, classifyResize (lookupHeight m orientationKey) availHeight height dH)

/-! ## The standalone focus-based emitter (`src/unnamed/part_001`)

Both document listeners guard on
`event.target.tagName === 'INPUT' && event.target.type === 'text'`; when the
guard passes they emit `'change'` plus `'show'`/`'hide'` and set the
`visible`/`hidden` flags on the emitter. -/

/-- The relevant fields of a focus event's target element. -/
structure FocusTarget where
  tagName : String
  type : String
deriving DecidableEq, Repr

/-- The mutable flags kept on the `eventEmitter` object. -/
structure EmitterFlags where
  visible : Bool
  hidden : Bool
deriving DecidableEq, Repr

/-- The `focusin` listener of `src/unnamed/part_001`: returns the updated
flags and the list of emitted event names. -/
def handleFocusin (s : EmitterFlags) (target : FocusTarget) :
    EmitterFlags × List String :=
  if target.tagName = "INPUT" ∧ target.type = "text" then
    ({ visible := true, hidden := false }, ["change", "show"])
  else (s, [])

/-- The `focusout` listener of `src/unnamed/part_001`. -/
def handleFocusout (s : EmitterFlags) (target : FocusTarget) :
    EmitterFlags × List String :=
  if target.tagName = "INPUT" ∧ target.type = "text" then
    ({ visible := false, hidden := true }, ["change", "hide"])
  else (s, [])

/-! ## Helper lemmas: duplicate suppression -/

theorem skipDuplicatesRun_head_ne (prev : String) (l : List String) :
    ∀ x, (skipDuplicatesRun prev l).head? = some x → x ≠ prev := by
  induction l generalizing prev with
  | nil => intro x hx; simp [skipDuplicatesRun] at hx
  | cons a rest ih =>
      intro x hx
      by_cases h : a ≠ prev
      · simp [skipDuplicatesRun, h] at hx
        subst hx; exact h
      · simp only [skipDuplicatesRun, if_neg h] at hx
        exact ih prev x hx

theorem skipDuplicatesRun_chain (prev : String) (l : List String) :
    List.Chain' (fun a b => a ≠ b) (skipDuplicatesRun prev l) := by
  induction l generalizing prev with
  | nil => simp [skipDuplicatesRun]
  | cons a rest ih =>
      by_cases h : a ≠ prev
      · simp only [skipDuplicatesRun, if_pos h]
        rw [List.chain'_cons']
        refine ⟨?_, ih a⟩
        intro y hy
        exact fun hay => (skipDuplicatesRun_head_ne a rest y hy) hay.symm
      · simp only [skipDuplicatesRun, if_neg h]
        exact ih prev

theorem skipRepeatsRun_head_ne [DecidableEq α] (prev : Option α) (l : List α) :
    ∀ x, (skipRepeatsRun prev l).head? = some x → prev ≠ some x := by
  induction l generalizing prev with
  | nil => intro x hx; simp [skipRepeatsRun] at hx
  | cons a rest ih =>
      intro x hx
      by_cases h : prev = some a
      · simp only [skipRepeatsRun, if_pos h] at hx
        exact ih prev x hx
      · simp [skipRepeatsRun, if_neg h] at hx
        subst hx; exact h

theorem skipRepeatsRun_cons [DecidableEq α] (prev : Option α) (a : α) (l : List α) :
    skipRepeatsRun prev (a :: l) =
      if prev = some a then skipRepeatsRun prev l
      else a :: skipRepeatsRun (some a) l := rfl

theorem skipRepeatsRun_chain [DecidableEq α] (prev : Option α) (l : List α) :
    List.Chain' (fun a b => a ≠ b) (skipRepeatsRun prev l) := by
  induction l generalizing prev with
  | nil => simp [skipRepeatsRun]
  | cons a rest ih =>
      by_cases h : prev = some a
      · simp only [skipRepeatsRun, if_pos h]
        exact ih prev
      · simp only [skipRepeatsRun, if_neg h]
        rw [List.chain'_cons']
        refine ⟨?_, ih (some a)⟩
        intro y hy hay
        exact (skipRepeatsRun_head_ne (some a) rest y hy) (by rw [hay])

/-! ## Helper lemmas: `scan` and `skipAfter` -/

theorem scanRun_head (step : β → α → β) (seed : β) (l : List α) :
    (scanRun step seed l).head? = some seed := by
  cases l <;> simp [scanRun]

theorem scanRun_forall (step : β → α → β) (seed : β) (l : List α)
    (P : β → Prop) (hseed : P seed) (hstep : ∀ b a, P b → P (step b a)) :
    ∀ m ∈ scanRun step seed l, P m := by
  induction l generalizing seed with
  | nil => intro m hm; simp [scanRun] at hm; rwa [hm]
  | cons a rest ih =>
      intro m hm
      simp only [scanRun, List.mem_cons] at hm
      rcases hm with hm | hm
      · rwa [hm]
      · exact ih (step seed a) (hstep seed a hseed) m hm

theorem scanRun_forall_mem (step : β → α → β) (seed : β) (l : List α)
    (P : β → Prop) (hseed : P seed)
    (hstep : ∀ b, ∀ a ∈ l, P b → P (step b a)) :
    ∀ m ∈ scanRun step seed l, P m := by
  induction l generalizing seed with
  | nil => intro m hm; simp [scanRun] at hm; rwa [hm]
  | cons a rest ih =>
      intro m hm
      simp only [scanRun, List.mem_cons] at hm
      rcases hm with hm | hm
      · rwa [hm]
      · exact ih (step seed a) (hstep seed a (by simp) hseed)
          (fun b x hx hb => hstep b x (List.mem_cons_of_mem a hx) hb) m hm

theorem scanRun_chain (step : β → α → β) (seed : β) (l : List α)
    (R : β → β → Prop) (hstep : ∀ b a, R b (step b a)) :
    List.Chain' R (scanRun step seed l) := by
  induction l generalizing seed with
  | nil => simp [scanRun]
  | cons a rest ih =>
      simp only [scanRun]
      rw [List.chain'_cons']
      refine ⟨?_, ih (step seed a)⟩
      intro y hy
      rw [scanRun_head] at hy
      cases hy
      exact hstep seed a

theorem skipAfterRun_sub (p : α → Bool) (l : List α) :
    ∀ x ∈ skipAfterRun p l, x ∈ l := by
  induction l with
  | nil => simp [skipAfterRun]
  | cons a rest ih =>
      intro x hx
      by_cases h : p a
      · simp [skipAfterRun, h] at hx
        simp [hx]
      · simp only [skipAfterRun, if_neg h, List.mem_cons] at hx
        rcases hx with hx | hx
        · simp [hx]
        · exact List.mem_cons_of_mem a (ih x hx)

theorem skipAfterRun_head (p : α → Bool) (l : List α) :
    (skipAfterRun p l).head? = l.head? := by
  cases l with
  | nil => rfl
  | cons a rest =>
      by_cases h : p a <;> simp [skipAfterRun, h]

theorem skipAfterRun_chain (p : α → Bool) (l : List α)
    (R : α → α → Prop) (h : List.Chain' R l) :
    List.Chain' R (skipAfterRun p l) := by
  induction l with
  | nil => simp [skipAfterRun]
  | cons a rest ih =>
      rw [List.chain'_cons'] at h
      by_cases hp : p a
      · simp [skipAfterRun, hp]
      · simp only [skipAfterRun, if_neg hp]
        rw [List.chain'_cons']
        refine ⟨?_, ih h.2⟩
        intro y hy
        rw [skipAfterRun_head] at hy
        exact h.1 y hy

theorem skipAfterRun_dropLast (p : α → Bool) (l : List α) :
    ∀ x ∈ (skipAfterRun p l).dropLast, p x = false := by
  induction l with
  | nil => simp [skipAfterRun]
  | cons a rest ih =>
      intro x hx
      by_cases hp : p a
      · simp [skipAfterRun, hp] at hx
      · simp only [skipAfterRun, if_neg hp] at hx
        cases hs : skipAfterRun p rest with
        | nil => rw [hs] at hx; simp at hx
        | cons b s =>
            rw [hs, List.dropLast_cons₂, List.mem_cons] at hx
            rcases hx with hx | hx
            · rw [hx]; simpa using hp
            · exact ih x (by rw [hs]; exact hx)

/-! ## Helper lemmas: `assocSet` and baseline-map keys -/

theorem mem_keys_assocSet (k : String) (v : ℚ) (m : List (String × ℚ)) (a : String) :
    a ∈ (assocSet k v m).map Prod.fst ↔ a ∈ m.map Prod.fst ∨ a = k := by
  induction m with
  | nil => simp [assocSet]
  | cons p rest ih =>
      rcases p with ⟨k₀, v₀⟩
      by_cases h : k₀ = k
      · subst h
        have heq : assocSet k₀ v ((k₀, v₀) :: rest) = (k₀, v) :: rest := by
          simp [assocSet]
        rw [heq]
        simp only [List.map_cons, List.mem_cons]
        tauto
      · have heq : assocSet k v ((k₀, v₀) :: rest) = (k₀, v₀) :: assocSet k v rest := by
          simp [assocSet, h]
        rw [heq]
        simp only [List.map_cons, List.mem_cons, ih]
        tauto

theorem keys_subset_assocSet (k : String) (v : ℚ) (m : List (String × ℚ)) :
    m.map Prod.fst ⊆ (assocSet k v m).map Prod.fst := by
  intro a ha
  rw [mem_keys_assocSet]
  exact Or.inl ha

theorem keys_nodup_assocSet (k : String) (v : ℚ) (m : List (String × ℚ))
    (h : (m.map Prod.fst).Nodup) : ((assocSet k v m).map Prod.fst).Nodup := by
  induction m with
  | nil => simp [assocSet]
  | cons p rest ih =>
      rcases p with ⟨k₀, v₀⟩
      simp only [List.map_cons, List.nodup_cons] at h
      by_cases hk : k₀ = k
      · simp only [assocSet, if_pos hk, List.map_cons, List.nodup_cons]
        exact ⟨by rw [← hk]; exact h.1, h.2⟩
      · simp only [assocSet, if_neg hk, List.map_cons, List.nodup_cons]
        refine ⟨?_, ih h.2⟩
        rw [mem_keys_assocSet]
        rintro (hmem | heq)
        · exact h.1 hmem
        · exact hk heq

theorem keys_in_orientations_assocSet (k : String) (v : ℚ) (m : List (String × ℚ))
    (hk : k = "portrait" ∨ k = "landscape")
    (h : ∀ a ∈ m.map Prod.fst, a = "portrait" ∨ a = "landscape") :
    ∀ a ∈ (assocSet k v m).map Prod.fst, a = "portrait" ∨ a = "landscape" := by
  intro a ha
  rw [mem_keys_assocSet] at ha
  rcases ha with ha | ha
  · exact h a ha
  · rw [ha]; exact hk

theorem length_le_two_of_keys (m : List (String × ℚ))
    (hnd : (m.map Prod.fst).Nodup)
    (h : ∀ a ∈ m.map Prod.fst, a = "portrait" ∨ a = "landscape") :
    m.length ≤ 2 := by
  have hsub : m.map Prod.fst ⊆ ["portrait", "landscape"] := by
    intro a ha
    rcases h a ha with ha' | ha' <;> simp [ha']
  have hlen : (m.map Prod.fst).length ≤ 2 := by
    have := (List.Nodup.subperm hnd hsub).length_le
    simpa using this
  simpa using hlen

/-- `getScreenOrientationType` always produces one of the two keys. -/
theorem getScreenOrientationType_cases (s : String) :
    getScreenOrientationType s = "portrait" ∨ getScreenOrientationType s = "landscape" := by
  unfold getScreenOrientationType
  by_cases h : "portrait".toList.isPrefixOf s.toList
  · rw [if_pos h]; left; rfl
  · rw [if_neg h]; right; rfl

/-! ## Helper lemmas: the focus `switchLatest` model -/

theorem switchFocusRun_singleton (a : ℕ × FocusEventType) :
    switchFocusRun [a] = focusInnerStream a.1 a.2 := by
  rcases a with ⟨t, e⟩
  rfl

theorem switchFocusRun_cons_cons (a b : ℕ × FocusEventType)
    (rest : List (ℕ × FocusEventType)) :
    switchFocusRun (a :: b :: rest) =
      (focusInnerStream a.1 a.2).filter (fun p => p.1 < b.1) ++
        switchFocusRun (b :: rest) := by
  rcases a with ⟨t, e⟩
  rcases b with ⟨t', e'⟩
  rfl

theorem focusInnerStream_mem (t : ℕ) (e : FocusEventType) (p : ℕ × Bool) :
    p ∈ focusInnerStream t e ↔
      (e = FocusEventType.focusin ∧ p = (t, false)) ∨
      (e = FocusEventType.focusout ∧ p = (t + INPUT_ELEMENT_FOCUS_JUMP_DELAY, true)) := by
  cases e <;> simp [focusInnerStream]

theorem head_time_le_of_chain (q : ℕ × FocusEventType)
    (rest : List (ℕ × FocusEventType))
    (hs : List.Chain' (fun a b => a.1 < b.1) (q :: rest)) :
    ∀ x ∈ q :: rest, q.1 ≤ x.1 := by
  induction rest generalizing q with
  | nil => intro x hx; simp at hx; rw [hx]
  | cons b rest' ih =>
      intro x hx
      rw [List.chain'_cons] at hs
      rcases List.mem_cons.mp hx with hx | hx
      · rw [hx]
      · exact le_trans (le_of_lt hs.1) (ih b hs.2 x hx)

theorem switchFocusRun_time_lb (events : List (ℕ × FocusEventType))
    (hs : List.Chain' (fun a b => a.1 < b.1) events)
    (q : ℕ × FocusEventType) (hq : events.head? = some q) :
    ∀ p ∈ switchFocusRun events, q.1 ≤ p.1 := by
  induction events generalizing q with
  | nil => intro p hp; simp [switchFocusRun] at hp
  | cons a rest ih =>
      intro p hp
      simp only [List.head?_cons, Option.some_inj] at hq
      subst hq
      rcases a with ⟨t, e⟩
      cases rest with
      | nil =>
          simp only [switchFocusRun] at hp
          rcases (focusInnerStream_mem t e p).mp hp with ⟨_, hp⟩ | ⟨_, hp⟩
          · rw [hp]
          · rw [hp]; exact Nat.le_add_right t _
      | cons b rest' =>
          simp only [switchFocusRun, List.mem_append] at hp
          rcases hp with hp | hp
          · have hmem := List.mem_of_mem_filter hp
            rcases (focusInnerStream_mem t e p).mp hmem with ⟨_, hp'⟩ | ⟨_, hp'⟩
            · rw [hp']
            · rw [hp']; exact Nat.le_add_right t _
          · rw [List.chain'_cons] at hs
            have hb := ih hs.2 b rfl p hp
            exact le_trans (le_of_lt hs.1) hb

theorem switchFocusRun_true_src (events : List (ℕ × FocusEventType))
    (p : ℕ × Bool) (hp : p ∈ switchFocusRun events) (ht : p.2 = true) :
    ∃ s, (s, FocusEventType.focusout) ∈ events ∧
      p.1 = s + INPUT_ELEMENT_FOCUS_JUMP_DELAY := by
  induction events with
  | nil => simp [switchFocusRun] at hp
  | cons a rest ih =>
      rcases a with ⟨t, e⟩
      cases rest with
      | nil =>
          simp only [switchFocusRun] at hp
          rcases (focusInnerStream_mem t e p).mp hp with ⟨_, hp'⟩ | ⟨he, hp'⟩
          · rw [hp'] at ht; simp at ht
          · exact ⟨t, by simp [he], by rw [hp']⟩
      | cons b rest' =>
          simp only [switchFocusRun, List.mem_append] at hp
          rcases hp with hp | hp
          · have hmem := List.mem_of_mem_filter hp
            rcases (focusInnerStream_mem t e p).mp hmem with ⟨_, hp'⟩ | ⟨he, hp'⟩
            · rw [hp'] at ht; simp at ht
            · exact ⟨t, by simp [he], by rw [hp']⟩
          · rcases ih hp with ⟨s, hmem, hs⟩
            exact ⟨s, List.mem_cons_of_mem _ hmem, hs⟩

theorem switchFocusRun_focusin_mem (events : List (ℕ × FocusEventType))
    (hs : List.Chain' (fun a b => a.1 < b.1) events)
    (t : ℕ) (hmem : (t, FocusEventType.focusin) ∈ events) :
    (t, false) ∈ switchFocusRun events := by
  induction events with
  | nil => simp at hmem
  | cons a rest ih =>
      rcases List.mem_cons.mp hmem with hmem' | hmem'
      · cases rest with
        | nil =>
            rw [← hmem']
            simp [switchFocusRun, focusInnerStream]
        | cons b rest' =>
            rw [← hmem']
            simp only [switchFocusRun, List.mem_append]
            left
            rw [List.mem_filter]
            refine ⟨by simp [focusInnerStream], ?_⟩
            rw [← hmem'] at hs
            rw [List.chain'_cons] at hs
            simpa using hs.1
      · cases rest with
        | nil => simp at hmem'
        | cons b rest' =>
            rw [List.chain'_cons] at hs
            simp only [switchFocusRun, List.mem_append]
            right
            exact ih hs.2 hmem'

theorem switchFocusRun_focusout_mem (pre : List (ℕ × FocusEventType)) (t : ℕ)
    (rest : List (ℕ × FocusEventType))
    (hq : ∀ q ∈ rest.head?, t + INPUT_ELEMENT_FOCUS_JUMP_DELAY < q.1) :
    (t + INPUT_ELEMENT_FOCUS_JUMP_DELAY, true) ∈
      switchFocusRun (pre ++ (t, FocusEventType.focusout) :: rest) := by
  induction pre with
  | nil =>
      cases rest with
      | nil => simp [switchFocusRun, focusInnerStream]
      | cons b rest' =>
          simp only [List.nil_append, switchFocusRun, List.mem_append]
          left
          rw [List.mem_filter]
          refine ⟨by simp [focusInnerStream], ?_⟩
          have := hq b (by simp)
          simpa using this
  | cons a pre' ih =>
      cases hL : pre' ++ (t, FocusEventType.focusout) :: rest with
      | nil => exact absurd hL (by simp)
      | cons hd tl =>
          rw [List.cons_append, hL, switchFocusRun_cons_cons, List.mem_append]
          right
          rw [← hL]
          exact ih

theorem switchFocusRun_focusout_cancelled (pre : List (ℕ × FocusEventType))
    (t t' : ℕ) (e' : FocusEventType) (rest' : List (ℕ × FocusEventType))
    (hs : List.Chain' (fun a b => a.1 < b.1)
      (pre ++ (t, FocusEventType.focusout) :: (t', e') :: rest'))
    (hlt : t' < t + INPUT_ELEMENT_FOCUS_JUMP_DELAY) :
    (t + INPUT_ELEMENT_FOCUS_JUMP_DELAY, true) ∉
      switchFocusRun (pre ++ (t, FocusEventType.focusout) :: (t', e') :: rest') := by
  induction pre with
  | nil =>
      intro hmem
      rw [List.nil_append, switchFocusRun_cons_cons, List.mem_append] at hmem
      rcases hmem with hmem | hmem
      · rw [List.mem_filter] at hmem
        have h2 := hmem.2
        simp only [decide_eq_true_eq] at h2
        omega
      · rcases switchFocusRun_true_src ((t', e') :: rest')
            (t + INPUT_ELEMENT_FOCUS_JUMP_DELAY, true) hmem rfl with ⟨s, hsmem, hseq⟩
        simp only at hseq
        have hst : s = t := by omega
        subst hst
        rw [List.nil_append, List.chain'_cons] at hs
        have hle := head_time_le_of_chain (t', e') rest' hs.2 (s, FocusEventType.focusout) hsmem
        simp only at hle
        have h1 := hs.1
        simp only at h1
        omega
  | cons a pre' ih =>
      intro hmem
      cases hL : pre' ++ (t, FocusEventType.focusout) :: (t', e') :: rest' with
      | nil => exact absurd hL (by simp)
      | cons hd tl =>
          rw [List.cons_append, hL, switchFocusRun_cons_cons, List.mem_append] at hmem
          rw [List.cons_append, hL, List.chain'_cons] at hs
          rcases hmem with hmem | hmem
          · have hinner := List.mem_of_mem_filter hmem
            rcases (focusInnerStream_mem a.1 a.2 _).mp hinner with ⟨_, hp'⟩ | ⟨_, hp'⟩
            · simp at hp'
            · have hat : t = a.1 := by
                have hfst := congrArg Prod.fst hp'
                simpa using hfst
              have htmem : (t, FocusEventType.focusout) ∈ hd :: tl := by
                rw [← hL]; simp
              have hle := head_time_le_of_chain hd tl hs.2 _ htmem
              simp only at hle
              have h1 := hs.1
              omega
          · rw [← hL] at hmem
            exact ih (by rw [hL]; exact hs.2) hmem

/-! ## Claim theorems -/

/-- Claim C1: for a width-preserving resize sample processed by the Strategy B
classifier, with no baseline for the current orientation a height delta below
−10% of `screen.availHeight` yields `visible`, a delta above +10% yields
`hidden`, and any other delta yields no emission; with a (positive) baseline
`nonOSKHeight`, `height < 0.9 × nonOSKHeight` with a negative delta yields
`visible`, `height = nonOSKHeight` with a positive delta yields `hidden`, and
every other combination yields no emission. -/
theorem c1_resize_classifier (nonOSK : Option ℚ) (availHeight height dH : ℚ)
    (havail : 0 ≤ availHeight)
    (hpos : ∀ nh, nonOSK = some nh → 0 < nh) :
    (nonOSK = none →
      (dH < -(1/10 * availHeight) →
        classifyResize nonOSK availHeight height dH = some KeyboardState.visible) ∧
      (dH > 1/10 * availHeight →
        classifyResize nonOSK availHeight height dH = some KeyboardState.hidden) ∧
      (-(1/10 * availHeight) ≤ dH → dH ≤ 1/10 * availHeight →
        classifyResize nonOSK availHeight height dH = none)) ∧
    (∀ nh, nonOSK = some nh →
      (height < 9/10 * nh → dH < 0 →
        classifyResize nonOSK availHeight height dH = some KeyboardState.visible) ∧
      (height = nh → 0 < dH →
        classifyResize nonOSK availHeight height dH = some KeyboardState.hidden) ∧
      (¬(height < 9/10 * nh ∧ dH < 0) → ¬(height = nh ∧ 0 < dH) →
        classifyResize nonOSK availHeight height dH = none)) := by
  constructor
  · intro hnone
    subst hnone
    simp only [classifyResize, classifyFallback]
    refine ⟨?_, ?_, ?_⟩
    · intro h1
      rw [if_neg (by intro h; linarith), if_pos h1]
    · intro h1
      rw [if_pos h1]
    · intro h1 h2
      rw [if_neg (by intro h; linarith), if_neg (by intro h; linarith)]
  · intro nh hsome
    subst hsome
    have hnh := hpos nh rfl
    simp only [classifyResize]
    rw [if_neg (by intro h; linarith)]
    refine ⟨?_, ?_, ?_⟩
    · intro h1 h2
      rw [if_pos ⟨h1, h2⟩]
    · intro h1 h2
      rw [if_neg (by rintro ⟨hx, hy⟩; linarith), if_pos ⟨h1, h2⟩]
    · intro h1 h2
      rw [if_neg h1, if_neg h2]

/-- Witness for C1, at the spec's own example: baseline `portrait → 700`, a
settled resize to height 600 with delta −100 classifies as `visible`. -/
theorem c1_resize_classifier_witness :
    classifyResize (some 700) 750 600 (-100) = some KeyboardState.visible :=
  ((c1_resize_classifier (some 700) 750 600 (-100) (by norm_num)
      (fun nh h => by rw [Option.some_inj] at h; rw [← h]; norm_num)).2
    700 rfl).1 (by norm_num) (by norm_num)

/-- Claim C2: Strategy A classifies a viewport resize as `visible` exactly
when `(window.innerHeight - event.target.height) / window.innerHeight > 0.1`
and as `hidden` otherwise; with `window.innerHeight = 800`, viewport heights
800, 600, 790 classify as `hidden`, `visible`, `hidden`. -/
theorem c2_direct_ratio :
    (∀ innerHeight viewportHeight : ℚ,
      (onResizeClassification innerHeight viewportHeight = "visible" ↔
        (innerHeight - viewportHeight) / innerHeight > 1/10) ∧
      (onResizeClassification innerHeight viewportHeight = "hidden" ↔
        (innerHeight - viewportHeight) / innerHeight ≤ 1/10)) ∧
    [(800 : ℚ), 600, 790].map (onResizeClassification 800) =
      ["hidden", "visible", "hidden"] := by
  constructor
  · intro innerHeight viewportHeight
    unfold onResizeClassification
    by_cases h : (innerHeight - viewportHeight) / innerHeight > 1/10
    · rw [if_pos h]
      exact ⟨iff_of_true rfl h, iff_of_false (by decide) (not_le.mpr h)⟩
    · rw [if_neg h]
      exact ⟨iff_of_false (by decide) h, iff_of_true rfl (not_lt.mp h)⟩
  · norm_num [onResizeClassification]

/-- Claim C9: when the platform family requires the visual-viewport strategy
and that signal is absent, `isSupported()` is `false` and `subscribe`
logs the warning, attaches no listener (so the callback is never invoked for
any event sequence), and its returned unsubscribe is trivial. -/
theorem c9_unsupported_degrades :
    (∀ isTouchable, isSupportedMain true isTouchable false = false) ∧
    iosIsSupported false = false ∧
    iosSubscribe false = { warned := true, listenerAttached := false } ∧
    (∀ (innerHeight : ℚ) (viewportHeights : List ℚ),
      iosSubscribeInvocations false innerHeight viewportHeights = []) ∧
    iosUnsubscribe (iosSubscribe false) = iosSubscribe false := by
  refine ⟨?_, rfl, rfl, ?_, rfl⟩
  · intro isTouchable; rfl
  · intro innerHeight viewportHeights; rfl

/-- Claim C10: in the standalone focus emitter, a focus event whose target is
not a text input emits nothing and leaves the flags unchanged; a handled
`focusin` sets `visible = true, hidden = false` (emitting `change`, `show`),
a handled `focusout` sets `visible = false, hidden = true` (emitting
`change`, `hide`), so after every handled event `visible = !hidden`. -/
theorem c10_emitter_flags (s : EmitterFlags) (target : FocusTarget) :
    (¬(target.tagName = "INPUT" ∧ target.type = "text") →
      handleFocusin s target = (s, []) ∧ handleFocusout s target = (s, [])) ∧
    (target.tagName = "INPUT" ∧ target.type = "text" →
      handleFocusin s target =
        ({ visible := true, hidden := false }, ["change", "show"]) ∧
      handleFocusout s target =
        ({ visible := false, hidden := true }, ["change", "hide"]) ∧
      (handleFocusin s target).1.visible = !(handleFocusin s target).1.hidden ∧
      (handleFocusout s target).1.visible = !(handleFocusout s target).1.hidden) := by
  by_cases h : target.tagName = "INPUT" ∧ target.type = "text" <;>
    simp [handleFocusin, handleFocusout, h]

/-- Witness for C10: a `focusin` on a `DIV` target changes nothing. -/
theorem c10_emitter_flags_witness :
    handleFocusin { visible := false, hidden := false }
        { tagName := "DIV", type := "text" } =
      ({ visible := false, hidden := false }, []) :=
  ((c10_emitter_flags { visible := false, hidden := false }
      { tagName := "DIV", type := "text" }).1 (by decide)).1

/-- Counterexample to C3 as stated: the `layoutHeights` scan does not start
from the empty map — its seed is the singleton
`{ [getScreenOrientationType()]: window.innerHeight }`, so with no baseline
candidates at all the first (and only) emitted map already has an entry. -/
theorem c3_counterexample :
    layoutHeightsSeed "portrait-primary" 700 = [("portrait", (700 : ℚ))] ∧
    layoutHeightsEmissions "portrait-primary" 700 [] =
      [[("portrait", (700 : ℚ))]] ∧
    [("portrait", (700 : ℚ))] ≠ ([] : List (String × ℚ)) := by
  refine ⟨rfl, rfl, ?_⟩
  simp

/-- Claim C3 (amended): throughout every subscription the baseline map grows
monotonically starting from the singleton map holding the subscribe-time
orientation and window height, never holds more than 2 entries, and once both
orientations are present the tracker emits no further map (every emission in
which both orientations are present is the last one). -/
theorem c3_baseline_map_invariants (orientationTypeAtSubscribe : String)
    (innerHeightAtSubscribe : ℚ) (candidates : List HeightByOrientation)
    (hcand : ∀ c ∈ candidates,
      c.screenOrientation = "portrait" ∨ c.screenOrientation = "landscape") :
    (layoutHeightsEmissions orientationTypeAtSubscribe innerHeightAtSubscribe
        candidates).head? =
      some (layoutHeightsSeed orientationTypeAtSubscribe innerHeightAtSubscribe) ∧
    (∀ m ∈ layoutHeightsEmissions orientationTypeAtSubscribe
        innerHeightAtSubscribe candidates, m.length ≤ 2) ∧
    List.Chain' (fun a b => a.map Prod.fst ⊆ b.map Prod.fst)
      (layoutHeightsEmissions orientationTypeAtSubscribe innerHeightAtSubscribe
        candidates) ∧
    (∀ m ∈ (layoutHeightsEmissions orientationTypeAtSubscribe
        innerHeightAtSubscribe candidates).dropLast,
      bothOrientationsPresent m = false) := by
  refine ⟨?_, ?_, ?_, ?_⟩
  · rw [layoutHeightsEmissions, skipAfterRun_head, scanRun_head]
  · intro m hm
    have hm' := skipAfterRun_sub _ _ m hm
    have hP := scanRun_forall_mem layoutHeightsStep
      (layoutHeightsSeed orientationTypeAtSubscribe innerHeightAtSubscribe)
      candidates
      (fun b => (b.map Prod.fst).Nodup ∧
        ∀ a ∈ b.map Prod.fst, a = "portrait" ∨ a = "landscape")
      ⟨by simp [layoutHeightsSeed], by
        intro a ha
        simp only [layoutHeightsSeed, List.map_cons, List.map_nil,
          List.mem_singleton] at ha
        rw [ha]
        exact getScreenOrientationType_cases orientationTypeAtSubscribe⟩
      (fun b c hc hb => ⟨keys_nodup_assocSet _ _ _ hb.1,
        keys_in_orientations_assocSet _ _ _ (hcand c hc) hb.2⟩)
      m hm'
    exact length_le_two_of_keys m hP.1 hP.2
  · exact skipAfterRun_chain _ _ _
      (scanRun_chain layoutHeightsStep _ candidates _
        (fun b a => keys_subset_assocSet a.screenOrientation a.height b))
  · exact skipAfterRun_dropLast _ _

/-- Witness for C3 (amended): a subscription starting in portrait at height
700 that records one landscape candidate of height 350 first emits the
singleton seed map. -/
theorem c3_baseline_map_invariants_witness :
    (layoutHeightsEmissions "portrait-primary" 700
        [{ screenOrientation := "landscape", height := 350 }]).head? =
      some (layoutHeightsSeed "portrait-primary" 700) :=
  (c3_baseline_map_invariants "portrait-primary" 700
    [{ screenOrientation := "landscape", height := 350 }] (by decide)).1

/-- Counterexample to C4 as stated: rotating portrait→landscape while focused
with the OSK hidden (window height still equal to the startup height at the
`change` event, but different from it after the rotation settles, with
`screen.availHeight` 750 at startup and 420 in landscape).  The code
snapshots its condition at the `change` event and records the settled height
350; the claim's condition — sampled after the settle delay, comparing
against the pre-rotation height — is false there and would record
`420 − (750 − 700) = 370`. -/
theorem c4_counterexample :
    layoutHeightOnOSKFreeOrientationChange
        { unfocusedAtChange := false, unfocusedAtSettle := false,
          heightAtChange := 700, heightAtSettle := 350,
          orientationTypeAtSettle := "landscape-primary",
          availHeightAtStartup := 750, availHeightAtSettle := 420,
          initialLayoutHeight := 700 } =
      { screenOrientation := "landscape", height := 350 } ∧
    claimedBaselineOnOrientationChange
        { unfocusedAtChange := false, unfocusedAtSettle := false,
          heightAtChange := 700, heightAtSettle := 350,
          orientationTypeAtSettle := "landscape-primary",
          availHeightAtStartup := 750, availHeightAtSettle := 420,
          initialLayoutHeight := 700 } = 370 ∧
    (350 : ℚ) ≠ 370 := by
  refine ⟨?_, ?_, ?_⟩
  · rfl
  · unfold claimedBaselineOnOrientationChange approximateBrowserToolbarHeight
    norm_num
  · norm_num

/-- Claim C4 (amended): after the settle delay the tracker records, for the
settled orientation, the settled window height when — at the moment of the
orientation-change event — the device was unfocused or the window height
equalled the startup window height; otherwise it records the settle-time
`screen.availHeight` minus `toolbarHeightEstimate`, where
`toolbarHeightEstimate` was computed once at startup as the startup
`screen.availHeight` minus the initial window height. -/
theorem c4_orientation_baseline (env : OrientationChangeEnv) :
    (env.unfocusedAtChange = true ∨ env.heightAtChange = env.initialLayoutHeight →
      layoutHeightOnOSKFreeOrientationChange env =
        { screenOrientation := getScreenOrientationType env.orientationTypeAtSettle,
          height := env.heightAtSettle }) ∧
    (env.unfocusedAtChange = false → env.heightAtChange ≠ env.initialLayoutHeight →
      layoutHeightOnOSKFreeOrientationChange env =
        { screenOrientation := getScreenOrientationType env.orientationTypeAtSettle,
          height := env.availHeightAtSettle -
            approximateBrowserToolbarHeight env.availHeightAtStartup
              env.initialLayoutHeight }) := by
  constructor
  · rintro (h | h) <;> simp [layoutHeightOnOSKFreeOrientationChange, h]
  · intro h1 h2
    simp [layoutHeightOnOSKFreeOrientationChange, h1, h2]

/-- Witness for C4 (amended): an orientation change arriving fully unfocused
records the settled landscape height. -/
theorem c4_orientation_baseline_witness :
    layoutHeightOnOSKFreeOrientationChange
        { unfocusedAtChange := true, unfocusedAtSettle := true,
          heightAtChange := 700, heightAtSettle := 350,
          orientationTypeAtSettle := "landscape-primary",
          availHeightAtStartup := 750, availHeightAtSettle := 420,
          initialLayoutHeight := 700 } =
      { screenOrientation := "landscape", height := 350 } :=
  (c4_orientation_baseline
    { unfocusedAtChange := true, unfocusedAtSettle := true,
      heightAtChange := 700, heightAtSettle := 350,
      orientationTypeAtSettle := "landscape-primary",
      availHeightAtStartup := 750, availHeightAtSettle := 420,
      initialLayoutHeight := 700 }).1 (Or.inl rfl)

/-- Counterexample to C5 as stated: a width-preserving resize processed while
the document-visibility state is `'hidden'` still produces a classification —
the resize-classification path of `osk` carries no visibility gate (only the
baseline path inside `layoutHeights` does). -/
theorem c5_counterexample :
    engineStep "hidden" [] "portrait" 1000
        (EngineEvent.resizeSample 600 (-200)) =
      ([], some KeyboardState.visible) ∧
    some KeyboardState.visible ≠ (none : Option KeyboardState) := by
  refine ⟨?_, by simp⟩
  norm_num [engineStep, lookupHeight, classifyResize, classifyFallback]

/-- Claim C5 (amended): a baseline-candidate event processed while the
document-visibility state is `'hidden'` produces no baseline update and no
classification; the resize-classification path, however, is independent of
the visibility state (it is not gated), and a resize sample never updates the
baseline map. -/
theorem c5_visibility_gate (m : List (String × ℚ)) (orientationKey : String)
    (availHeight : ℚ) :
    (∀ c, engineStep "hidden" m orientationKey availHeight
        (EngineEvent.baselineCandidate c) = (m, none)) ∧
    (∀ height dH, (engineStep "hidden" m orientationKey availHeight
        (EngineEvent.resizeSample height dH)).1 = m) ∧
    (∀ visibilityState height dH,
      engineStep visibilityState m orientationKey availHeight
          (EngineEvent.resizeSample height dH) =
        (m, classifyResize (lookupHeight m orientationKey) availHeight height dH)) := by
  refine ⟨?_, ?_, ?_⟩
  · intro c
    simp [engineStep]
  · intro height dH
    rfl
  · intro visibilityState height dH
    rfl

/-- Counterexample to C6 as stated: after `'hidden'` has just been delivered,
a confirmed focus-out merges another `'hidden'` which `skipRepeats`
suppresses, and the next callback actually delivered (from a later classifier
emission) is `'visible'`, not `'hidden'`. -/
theorem c6_counterexample :
    oskDeliveries none [OskSourceEvent.classified KeyboardState.hidden] =
      [KeyboardState.hidden] ∧
    oskDeliveryState none [OskSourceEvent.classified KeyboardState.hidden] =
      some KeyboardState.hidden ∧
    oskDeliveries (some KeyboardState.hidden)
        [OskSourceEvent.confirmedUnfocus,
          OskSourceEvent.classified KeyboardState.visible] =
      [KeyboardState.visible] ∧
    KeyboardState.visible ≠ KeyboardState.hidden := by
  refine ⟨rfl, rfl, rfl, by simp⟩

/-- Claim C6 (amended): once a focus-out is confirmed after the grace period
with no intervening focus-in, a `'hidden'` value is merged into the output
stream; whenever the most recently delivered state is not already `'hidden'`,
the next callback invocation delivered to the consumer is `'hidden'`. -/
theorem c6_focus_forced_hidden (prev : Option KeyboardState)
    (rest : List OskSourceEvent) (hprev : prev ≠ some KeyboardState.hidden) :
    (oskDeliveries prev (OskSourceEvent.confirmedUnfocus :: rest)).head? =
      some KeyboardState.hidden := by
  unfold oskDeliveries
  rw [List.map_cons]
  have hval : oskMergedValue OskSourceEvent.confirmedUnfocus =
      KeyboardState.hidden := rfl
  rw [hval, skipRepeatsRun_cons, if_neg hprev]
  rfl

/-- Witness for C6 (amended): with `'visible'` as the last delivered state, a
confirmed focus-out delivers `'hidden'` next. -/
theorem c6_focus_forced_hidden_witness :
    (oskDeliveries (some KeyboardState.visible)
        [OskSourceEvent.confirmedUnfocus]).head? = some KeyboardState.hidden :=
  c6_focus_forced_hidden (some KeyboardState.visible) [] (by simp)

/-- Claim C7: over any strictly time-ordered focus-event sequence, the
`isUnfocused` stream (i) emits `false` at the instant of every `focusin`;
(ii) emits `true` only at `focusout` time + grace period; (iii) emits that
`true` when no event intervenes within the grace period and suppresses it
when one does; (iv) seeds with `true` exactly when no element (or only the
body) is focused at subscribe time; and (v) deduplicates consecutive values
before consumers react. -/
theorem c7_focus_debounce (activeElement : Option ℕ)
    (events : List (ℕ × FocusEventType))
    (hs : List.Chain' (fun a b => a.1 < b.1) events) :
    (∀ t, (t, FocusEventType.focusin) ∈ events →
      (t, false) ∈ switchFocusRun events) ∧
    (∀ p ∈ switchFocusRun events, p.2 = true →
      ∃ s, (s, FocusEventType.focusout) ∈ events ∧
        p.1 = s + INPUT_ELEMENT_FOCUS_JUMP_DELAY) ∧
    (∀ pre t rest, events = pre ++ (t, FocusEventType.focusout) :: rest →
      ((∀ q ∈ rest.head?, t + INPUT_ELEMENT_FOCUS_JUMP_DELAY < q.1) →
        (t + INPUT_ELEMENT_FOCUS_JUMP_DELAY, true) ∈ switchFocusRun events) ∧
      (∀ t' e' rest', rest = (t', e') :: rest' →
        t' < t + INPUT_ELEMENT_FOCUS_JUMP_DELAY →
        (t + INPUT_ELEMENT_FOCUS_JUMP_DELAY, true) ∉ switchFocusRun events)) ∧
    (isUnfocusedSeed activeElement = true ↔
      (activeElement = none ∨ activeElement = some 0)) ∧
    List.Chain' (fun a b => a ≠ b) (isUnfocusedEmissions activeElement events) := by
  refine ⟨?_, ?_, ?_, ?_, ?_⟩
  · intro t hmem
    exact switchFocusRun_focusin_mem events hs t hmem
  · intro p hp ht
    exact switchFocusRun_true_src events p hp ht
  · intro pre t rest heq
    subst heq
    constructor
    · intro hq
      exact switchFocusRun_focusout_mem pre t rest hq
    · intro t' e' rest' hrest hlt
      subst hrest
      exact switchFocusRun_focusout_cancelled pre t t' e' rest' hs hlt
  · cases activeElement with
    | none => simp [isUnfocusedSeed, isAnyElementActive]
    | some e => simp [isUnfocusedSeed, isAnyElementActive]
  · exact skipRepeatsRun_chain none _

/-- Witness for C7: two focus events 800 ms apart — the `focusin` at time 100
emits `false` immediately. -/
theorem c7_focus_debounce_witness :
    (100, false) ∈ switchFocusRun
      [(100, FocusEventType.focusin), (900, FocusEventType.focusout)] :=
  (c7_focus_debounce none
    [(100, FocusEventType.focusin), (900, FocusEventType.focusout)]
    (by simp)).1 100 (by simp)

/-- Claim C8: for any input sequence, neither strategy ever invokes the
callback twice in a row with the same value: Strategy A's invocation list and
Strategy B's delivery list are adjacent-distinct, the Strategy A duplicate
filter starts from the sentinel `'_one_time_initial_'`, distinct from both
`'visible'` and `'hidden'`, and a value is forwarded only when it differs
from the previously forwarded one. -/
theorem c8_no_duplicate_emissions :
    (∀ (supported : Bool) (innerHeight : ℚ) (viewportHeights : List ℚ),
      List.Chain' (fun a b => a ≠ b)
        (iosSubscribeInvocations supported innerHeight viewportHeights)) ∧
    (∀ (prev : Option KeyboardState) (events : List OskSourceEvent),
      List.Chain' (fun a b => a ≠ b) (oskDeliveries prev events)) ∧
    oneTimeInitial ≠ "visible" ∧ oneTimeInitial ≠ "hidden" ∧
    (∀ (previous next : String) (l : List String),
      skipDuplicatesRun previous (next :: l) =
        if next ≠ previous then next :: skipDuplicatesRun next l
        else skipDuplicatesRun previous l) := by
  refine ⟨?_, ?_, ?_, ?_, ?_⟩
  · intro supported innerHeight viewportHeights
    unfold iosSubscribeInvocations
    by_cases h : supported = true
    · rw [if_pos h]
      exact skipDuplicatesRun_chain _ _
    · rw [if_neg h]
      exact List.chain'_nil
  · intro prev events
    exact skipRepeatsRun_chain prev _
  · simp [oneTimeInitial]
  · simp [oneTimeInitial]
  · intro previous next l
    rfl

end OSKD
